import Mathlib

/-!
# Verification of the ANSI/IES TM-30-18 Colour Fidelity Index core

Shallow embedding of `colour/quality/tm3018.py`: the hue binner, the per-bin
averager, the shoelace gamut-area estimator and the local chromaticity/hue
shift calculator, together with the aggregate specification record and the
`additional_data` entry-point branch.

The binner, averager, polygon area, gamut index and local fidelity values are
embedded over `ℚ` (the Python code computes them with exact-looking float
arithmetic over rational-spirited data; `ℚ` keeps them executable).  The local
chromaticity/hue shifts use `Real.cos`/`Real.sin` of the bin bisector angles,
so they are embedded over `ℝ`.
-/

namespace TM3018

/-- Modelled from the spec: spectral distributions are opaque pass-through
data from the upstream CIE 2017 computation (the actual class lives outside
the sources provided); only their identity matters here. -/
structure SpectralDistribution where
  values : List (ℚ × ℚ)
deriving DecidableEq

/-- Modelled from the spec: per-sample colorimetry data produced by the
upstream CIE 2017 base computation (`colour.quality.cfi2017`, not among the
provided sources).  The TM-30-18 core reads `JMh[2]` (the hue angle in
degrees) and `Jpapbp[1:]` (the a', b' chromaticity coordinates). -/
structure DataColorimetry_TCS_CIE2017 where
  JMh : ℚ × ℚ × ℚ
  Jpapbp : ℚ × ℚ × ℚ
deriving DecidableEq

/-- Modelled from the spec: the upstream CIE 2017 specification record
(`ColourRendering_Specification_CIE2017`, not among the provided sources),
holding the fields that `colour_fidelity_index_ANSIIESTM3018` reads and
passes through: name, reference spectral distribution, base fidelity index
`R_f`, per-sample fidelities `R_s`, `CCT`, `D_uv`, colorimetry data for the
(test, reference) conditions, and per-sample colour differences
`delta_E_s`. -/
structure ColourRendering_Specification_CIE2017 where
  name : String
  sd_reference : SpectralDistribution
  R_f : ℚ
  R_s : List ℚ
  CCT : ℚ
  D_uv : ℚ
  colorimetry_data :
    List DataColorimetry_TCS_CIE2017 × List DataColorimetry_TCS_CIE2017
  delta_E_s : List ℚ
deriving DecidableEq

/-- One triangle contribution of the shoelace loop body:
`(u[0] * v[1] - u[1] * v[0]) / 2` (tm3018.py line 234). -/
def triangle_area (u v : ℚ × ℚ) : ℚ :=
  (u.1 * v.2 - u.2 * v.1) / 2

/-- Shoelace polygon area of `averages_area` (tm3018.py lines 226-236):
for each `i` in `range N` the triangle spanned by point `i` and point
`(i + 1) % N` contributes `(u[0] * v[1] - u[1] * v[0]) / 2`, and the areas
are summed. -/
def averages_area (averages : List (ℚ × ℚ)) : ℚ :=
  ∑ i ∈ Finset.range averages.length,
    triangle_area (averages.getD i (0, 0))
      (averages.getD ((i + 1) % averages.length) (0, 0))

/-- Hue angles of the reference colorimetry data:
`[sample.JMh[2] for sample in specification.colorimetry_data[1]]`
(tm3018.py lines 144-149). -/
def reference_hues (s : ColourRendering_Specification_CIE2017) : List ℚ :=
  s.colorimetry_data.2.map (fun d => d.JMh.2.2)

/-- Hue binner (tm3018.py lines 144-150): sample `i` lands in bin `b` when
`floor(hue_i / 22.5) == b`; `np.where` lists the matching indices in
increasing order for each `b` in `range 16`. -/
def hue_bins (hues : List ℚ) : List (List ℕ) :=
  (List.range 16).map (fun b : ℕ =>
    (List.range hues.length).filter
      (fun i => decide (⌊hues.getD i 0 / (22.5 : ℚ)⌋ = (b : ℤ))))

/-- Arithmetic mean of a list, `np.mean` over one axis slice. -/
def bin_mean (l : List ℚ) : ℚ := l.sum / l.length

/-- Componentwise mean of the rows selected by a bin,
`np.mean(apbp[b], axis=0)` (tm3018.py lines 161-163). -/
def bin_average (apbp : List (ℚ × ℚ)) (bin : List ℕ) : ℚ × ℚ :=
  (bin_mean (bin.map (fun i => (apbp.getD i (0, 0)).1)),
   bin_mean (bin.map (fun i => (apbp.getD i (0, 0)).2)))

/-- Test-condition a'b' rows, `[j.Jpapbp[1:] for j in colorimetry_data[0]]`
(tm3018.py lines 155-157). -/
def test_apbp (s : ColourRendering_Specification_CIE2017) : List (ℚ × ℚ) :=
  s.colorimetry_data.1.map (fun d => (d.Jpapbp.2.1, d.Jpapbp.2.2))

/-- Reference-condition a'b' rows, `[j.Jpapbp[1:] for j in
colorimetry_data[1]]` (tm3018.py lines 158-160). -/
def ref_apbp (s : ColourRendering_Specification_CIE2017) : List (ℚ × ℚ) :=
  s.colorimetry_data.2.map (fun d => (d.Jpapbp.2.1, d.Jpapbp.2.2))

/-- Per-bin test averages (tm3018.py lines 153-162). -/
def averages_test (s : ColourRendering_Specification_CIE2017) :
    List (ℚ × ℚ) :=
  (hue_bins (reference_hues s)).map (bin_average (test_apbp s))

/-- Per-bin reference averages (tm3018.py lines 154-163). -/
def averages_reference (s : ColourRendering_Specification_CIE2017) :
    List (ℚ × ℚ) :=
  (hue_bins (reference_hues s)).map (bin_average (ref_apbp s))

/-- Gamut index (tm3018.py lines 166-168):
`R_g = 100 * (averages_area(averages_test) / averages_area(averages_reference))`. -/
def R_g (s : ColourRendering_Specification_CIE2017) : ℚ :=
  100 * (averages_area (averages_test s) / averages_area (averages_reference s))

/-- Per-bin mean colour differences (tm3018.py lines 171-173):
`[np.mean([delta_E_s[bins[i]]]) for i in range(16)]`. -/
def bin_delta_E_s (s : ColourRendering_Specification_CIE2017) : List ℚ :=
  (List.range 16).map (fun i =>
    bin_mean (((hue_bins (reference_hues s)).getD i []).map
      (fun j => s.delta_E_s.getD j 0)))

/-- Local colour fidelities (tm3018.py line 174), with the black-box
`delta_E_to_R_f` mapping of the upstream module passed in as `f`. -/
def R_fs (f : ℚ → ℚ) (s : ColourRendering_Specification_CIE2017) : List ℚ :=
  (bin_delta_E_s s).map f

/-- Bin bisecting angles (tm3018.py line 177):
`(22.5 * arange(16) + 11.25) / 180 * pi`. -/
noncomputable def angles (i : ℕ) : ℝ :=
  (22.5 * i + 11.25) / 180 * Real.pi

/-- Norm of a reference average, row `i` of
`np.linalg.norm(averages_reference, axis=1)` (tm3018.py line 181). -/
noncomputable def average_norms (ar : List (ℝ × ℝ)) (i : ℕ) : ℝ :=
  Real.sqrt ((ar.getD i (0, 0)).1 ^ 2 + (ar.getD i (0, 0)).2 ^ 2)

/-- Component `i` of `a_deltas = averages_test[:, 0] - averages_reference[:, 0]`
(tm3018.py line 182). -/
def a_deltas (t r : List (ℝ × ℝ)) (i : ℕ) : ℝ :=
  (t.getD i (0, 0)).1 - (r.getD i (0, 0)).1

/-- Component `i` of `b_deltas = averages_test[:, 1] - averages_reference[:, 1]`
(tm3018.py line 183). -/
def b_deltas (t r : List (ℝ × ℝ)) (i : ℕ) : ℝ :=
  (t.getD i (0, 0)).2 - (r.getD i (0, 0)).2

/-- Radial projection of the delta vector, the numerator factor
`a_deltas * cosines + b_deltas * sines` of tm3018.py line 186. -/
noncomputable def radial_component (t r : List (ℝ × ℝ)) (i : ℕ) : ℝ :=
  a_deltas t r i * Real.cos (angles i) + b_deltas t r i * Real.sin (angles i)

/-- Tangential projection of the delta vector, the numerator
`-a_deltas * sines + b_deltas * cosines` of tm3018.py line 189. -/
noncomputable def tangential_component (t r : List (ℝ × ℝ)) (i : ℕ) : ℝ :=
  -a_deltas t r i * Real.sin (angles i) + b_deltas t r i * Real.cos (angles i)

/-- Local chromaticity shift of bin `i` (tm3018.py line 186):
`R_cs = 100 * (a_deltas * cosines + b_deltas * sines) / average_norms`. -/
noncomputable def R_cs (t r : List (ℝ × ℝ)) (i : ℕ) : ℝ :=
  100 * radial_component t r i / average_norms r i

/-- Local hue shift of bin `i` (tm3018.py line 189):
`R_hs = (-a_deltas * sines + b_deltas * cosines) / average_norms`. -/
noncomputable def R_hs (t r : List (ℝ × ℝ)) (i : ℕ) : ℝ :=
  tangential_component t r i / average_norms r i

/-- Rational point lists reinterpreted over `ℝ` for the trigonometric
shift calculations. -/
def toRealPoints (l : List (ℚ × ℚ)) : List (ℝ × ℝ) :=
  l.map (fun p => ((p.1 : ℝ), (p.2 : ℝ)))

/-- The vectorized `R_cs` array as the list of its 16 entries. -/
noncomputable def R_cs_list (t r : List (ℝ × ℝ)) : List ℝ :=
  (List.range 16).map (R_cs t r)

/-- The vectorized `R_hs` array as the list of its 16 entries. -/
noncomputable def R_hs_list (t r : List (ℝ × ℝ)) : List ℝ :=
  (List.range 16).map (R_hs t r)

/-- The vectorized `average_norms` array as the list of its 16 entries. -/
noncomputable def average_norms_list (r : List (ℝ × ℝ)) : List ℝ :=
  (List.range 16).map (average_norms r)

/-- Aggregate TM-30-18 colour quality record (tm3018.py lines 34-96). -/
structure ColourQuality_Specification_ANSIIESTM3018 where
  name : String
  sd_test : SpectralDistribution
  sd_reference : SpectralDistribution
  R_f : ℚ
  R_s : List ℚ
  CCT : ℚ
  D_uv : ℚ
  colorimetry_data :
    List DataColorimetry_TCS_CIE2017 × List DataColorimetry_TCS_CIE2017
  R_g : ℚ
  bins : List (List ℕ)
  averages_test : List (ℚ × ℚ)
  averages_reference : List (ℚ × ℚ)
  average_norms : List ℝ
  R_fs : List ℚ
  R_cs : List ℝ
  R_hs : List ℝ

/-- Construction of the aggregate record from the upstream specification
(tm3018.py lines 143-208), parametrized by the black-box `delta_E_to_R_f`
mapping `f`. -/
noncomputable def tm3018_specification (f : ℚ → ℚ)
    (s : ColourRendering_Specification_CIE2017)
    (sd_test : SpectralDistribution) :
    ColourQuality_Specification_ANSIIESTM3018 where
  name := s.name
  sd_test := sd_test
  sd_reference := s.sd_reference
  R_f := s.R_f
  R_s := s.R_s
  CCT := s.CCT
  D_uv := s.D_uv
  colorimetry_data := s.colorimetry_data
  R_g := R_g s
  bins := hue_bins (reference_hues s)
  averages_test := averages_test s
  averages_reference := averages_reference s
  average_norms :=
    average_norms_list (toRealPoints (averages_reference s))
  R_fs := R_fs f s
  R_cs := R_cs_list (toRealPoints (averages_test s))
    (toRealPoints (averages_reference s))
  R_hs := R_hs_list (toRealPoints (averages_test s))
    (toRealPoints (averages_reference s))

/-- Result of the entry point: either the bare scalar fidelity index or the
full aggregate record. -/
inductive TM3018Output where
  | scalar (R_f : ℚ)
  | full (specification : ColourQuality_Specification_ANSIIESTM3018)

/-- Entry point (tm3018.py lines 99-208).  The upstream
`colour_fidelity_index_CIE2017` collaborator (not among the provided sources)
is passed in through its two modes: `cie2017_base sd` is its scalar result for
`additional_data=False` and `cie2017 sd` its full specification for
`additional_data=True`; `f` is the black-box `delta_E_to_R_f` mapping. -/
noncomputable def colour_fidelity_index_ANSIIESTM3018
    (cie2017_base : SpectralDistribution → ℚ)
    (cie2017 : SpectralDistribution → ColourRendering_Specification_CIE2017)
    (f : ℚ → ℚ)
    (sd_test : SpectralDistribution) (additional_data : Bool) : TM3018Output :=
  if !additional_data then TM3018Output.scalar (cie2017_base sd_test)
  else TM3018Output.full (tm3018_specification f (cie2017 sd_test) sd_test)

/-! ## Theorems -/

/-- Shoelace formula exactly as the specification words it: the sum over
`i` from 0 to 15 of `(u_i.x * v_i.y - u_i.y * v_i.x) / 2` where `v_i` is the
point at index `(i + 1) mod 16`.  Stated from the spec to be compared with
the source-derived `averages_area`. -/
def shoelace_formula (l : List (ℚ × ℚ)) : ℚ :=
  ∑ i ∈ Finset.range 16,
    ((l.getD i (0, 0)).1 * (l.getD ((i + 1) % 16) (0, 0)).2
      - (l.getD i (0, 0)).2 * (l.getD ((i + 1) % 16) (0, 0)).1) / 2

/-- Every length-16 list is a 16-element literal. -/
theorem exists16 {α : Type} (l : List α) (h : l.length = 16) :
    ∃ x0 x1 x2 x3 x4 x5 x6 x7 x8 x9 x10 x11 x12 x13 x14 x15 : α,
      l = [x0,x1,x2,x3,x4,x5,x6,x7,x8,x9,x10,x11,x12,x13,x14,x15] := by
  obtain ⟨x0, l, rfl⟩ := @List.exists_of_length_succ _ 15 l (by omega)
  rw [List.length_cons] at h
  obtain ⟨x1, l, rfl⟩ := @List.exists_of_length_succ _ 14 l (by omega)
  rw [List.length_cons] at h
  obtain ⟨x2, l, rfl⟩ := @List.exists_of_length_succ _ 13 l (by omega)
  rw [List.length_cons] at h
  obtain ⟨x3, l, rfl⟩ := @List.exists_of_length_succ _ 12 l (by omega)
  rw [List.length_cons] at h
  obtain ⟨x4, l, rfl⟩ := @List.exists_of_length_succ _ 11 l (by omega)
  rw [List.length_cons] at h
  obtain ⟨x5, l, rfl⟩ := @List.exists_of_length_succ _ 10 l (by omega)
  rw [List.length_cons] at h
  obtain ⟨x6, l, rfl⟩ := @List.exists_of_length_succ _ 9 l (by omega)
  rw [List.length_cons] at h
  obtain ⟨x7, l, rfl⟩ := @List.exists_of_length_succ _ 8 l (by omega)
  rw [List.length_cons] at h
  obtain ⟨x8, l, rfl⟩ := @List.exists_of_length_succ _ 7 l (by omega)
  rw [List.length_cons] at h
  obtain ⟨x9, l, rfl⟩ := @List.exists_of_length_succ _ 6 l (by omega)
  rw [List.length_cons] at h
  obtain ⟨x10, l, rfl⟩ := @List.exists_of_length_succ _ 5 l (by omega)
  rw [List.length_cons] at h
  obtain ⟨x11, l, rfl⟩ := @List.exists_of_length_succ _ 4 l (by omega)
  rw [List.length_cons] at h
  obtain ⟨x12, l, rfl⟩ := @List.exists_of_length_succ _ 3 l (by omega)
  rw [List.length_cons] at h
  obtain ⟨x13, l, rfl⟩ := @List.exists_of_length_succ _ 2 l (by omega)
  rw [List.length_cons] at h
  obtain ⟨x14, l, rfl⟩ := @List.exists_of_length_succ _ 1 l (by omega)
  rw [List.length_cons] at h
  obtain ⟨x15, l, rfl⟩ := @List.exists_of_length_succ _ 0 l (by omega)
  rw [List.length_cons] at h
  have hl : l = [] := List.eq_nil_of_length_eq_zero (by omega)
  subst hl
  exact ⟨x0,x1,x2,x3,x4,x5,x6,x7,x8,x9,x10,x11,x12,x13,x14,x15, rfl⟩

/-- C1: for every sequence of 16 two-component points, `averages_area`
returns the signed polygonal area given by the shoelace formula: the sum
over `i` from 0 to 15 of `(u_i.x * v_i.y - u_i.y * v_i.x) / 2`, where `u_i`
is the i-th point and `v_i` the point at index `(i + 1) mod 16`. -/
theorem averages_area_is_shoelace (l : List (ℚ × ℚ)) (h : l.length = 16) :
    averages_area l = shoelace_formula l := by
  simp only [averages_area, shoelace_formula, triangle_area, h]

/-- Concrete 16-point polygon used by the witnesses. -/
def example_polygon : List (ℚ × ℚ) :=
  [(10,0),(9,4),(7,7),(4,9),(0,10),(-4,9),(-7,7),(-9,4),
   (-10,0),(-9,-4),(-7,-7),(-4,-9),(0,-10),(4,-9),(7,-7),(9,-4)]

/-- Witness for C1 at the concrete polygon `example_polygon`. -/
theorem averages_area_is_shoelace_witness :
    example_polygon.length = 16 ∧
      averages_area example_polygon = shoelace_formula example_polygon :=
  ⟨rfl, averages_area_is_shoelace example_polygon rfl⟩

/-- C7: reversing the order of the 16 points (reversing the polygon's
winding) negates the value returned by `averages_area` exactly. -/
theorem averages_area_reverse (l : List (ℚ × ℚ)) (h : l.length = 16) :
    averages_area l.reverse = - averages_area l := by
  obtain ⟨x0,x1,x2,x3,x4,x5,x6,x7,x8,x9,x10,x11,x12,x13,x14,x15, rfl⟩ :=
    exists16 l h
  show averages_area [x15,x14,x13,x12,x11,x10,x9,x8,x7,x6,x5,x4,x3,x2,x1,x0]
      = - averages_area [x0,x1,x2,x3,x4,x5,x6,x7,x8,x9,x10,x11,x12,x13,x14,x15]
  simp [averages_area, Finset.sum_range_succ, triangle_area]
  ring

/-- Witness for C7 at the concrete polygon `example_polygon`. -/
theorem averages_area_reverse_witness :
    example_polygon.length = 16 ∧
      averages_area example_polygon.reverse = - averages_area example_polygon :=
  ⟨rfl, averages_area_reverse example_polygon rfl⟩

/-- Bin `b` of `hue_bins` for `b < 16`, as its defining filter. -/
theorem hue_bins_getD (hues : List ℚ) (b : ℕ) (hb : b < 16) :
    (hue_bins hues).getD b [] =
      (List.range hues.length).filter
        (fun i => decide (⌊hues.getD i 0 / (22.5 : ℚ)⌋ = (b : ℤ))) := by
  rw [hue_bins,
    List.getD_eq_getElem ((List.range 16).map _) [] (by simpa using hb),
    List.getElem_map, List.getElem_range]

/-- Membership in bin `b`: the index is in range and the floored scaled hue
angle equals `b`. -/
theorem mem_hue_bins (hues : List ℚ) (b : ℕ) (hb : b < 16) (i : ℕ) :
    i ∈ (hue_bins hues).getD b [] ↔
      i < hues.length ∧ ⌊hues.getD i 0 / (22.5 : ℚ)⌋ = (b : ℤ) := by
  rw [hue_bins_getD hues b hb]
  simp [List.mem_filter, List.mem_range]

/-- C3: for hue angles all in `[0, 360)` with at least one sample, the 16
bins partition the sample-index range: every index lies in exactly one bin
and no bin repeats an index. -/
theorem hue_bins_partition (hues : List ℚ) (hN : 1 ≤ hues.length)
    (hr : ∀ h ∈ hues, 0 ≤ h ∧ h < 360) :
    (∀ i < hues.length, ∃! b : Fin 16, i ∈ (hue_bins hues).getD b.1 [])
      ∧ ∀ bin ∈ hue_bins hues, bin.Nodup := by
  constructor
  · intro i hi
    have hmem : hues.getD i 0 ∈ hues := by
      rw [List.getD_eq_getElem _ _ hi]
      exact List.getElem_mem hi
    obtain ⟨h0, h360⟩ := hr _ hmem
    have hq0 : (0 : ℤ) ≤ ⌊hues.getD i 0 / (22.5 : ℚ)⌋ :=
      Int.floor_nonneg.2 (div_nonneg h0 (by norm_num))
    have hq16 : ⌊hues.getD i 0 / (22.5 : ℚ)⌋ < 16 := by
      apply Int.floor_lt.2
      rw [div_lt_iff (by norm_num : (0 : ℚ) < 22.5)]
      push_cast
      linarith
    refine ⟨⟨(⌊hues.getD i 0 / (22.5 : ℚ)⌋).toNat, by omega⟩, ?_, ?_⟩
    · show i ∈ (hue_bins hues).getD (⌊hues.getD i 0 / (22.5 : ℚ)⌋).toNat []
      rw [mem_hue_bins hues _ (by omega) i]
      exact ⟨hi, by omega⟩
    · rintro ⟨b, hb⟩ hbmem
      replace hbmem := (mem_hue_bins hues b hb i).1 hbmem
      have hfb := hbmem.2
      exact Fin.ext (by simp only; omega)
  · intro bin hbin
    obtain ⟨b, _, rfl⟩ := List.mem_map.1 hbin
    exact (List.nodup_range _).filter _

/-- Witness for C3 at the one-sample hue list `[0]`. -/
theorem hue_bins_partition_witness :
    (1 ≤ ([(0 : ℚ)]).length ∧ ∀ h ∈ [(0 : ℚ)], 0 ≤ h ∧ h < 360) ∧
      ((∀ i < ([(0 : ℚ)]).length,
          ∃! b : Fin 16, i ∈ (hue_bins [(0 : ℚ)]).getD b.1 [])
        ∧ ∀ bin ∈ hue_bins [(0 : ℚ)], bin.Nodup) :=
  ⟨⟨by norm_num, by norm_num⟩,
    hue_bins_partition [(0 : ℚ)] (by norm_num) (by norm_num)⟩

/-- C9: a sample whose reference hue angle is negative or at least 360 has
its floored scaled angle outside `{0..15}`, lands in none of the 16 bins,
and the union of the bins stays inside the index range, hence becomes a
strict subset of it. -/
theorem out_of_range_hue_omitted (hues : List ℚ) (i : ℕ)
    (hi : i < hues.length)
    (hout : hues.getD i 0 < 0 ∨ 360 ≤ hues.getD i 0) :
    (⌊hues.getD i 0 / (22.5 : ℚ)⌋ < 0
        ∨ 16 ≤ ⌊hues.getD i 0 / (22.5 : ℚ)⌋)
      ∧ (∀ bin ∈ hue_bins hues, i ∉ bin)
      ∧ ∀ j, (∃ bin ∈ hue_bins hues, j ∈ bin) → j < hues.length := by
  have hfl : ⌊hues.getD i 0 / (22.5 : ℚ)⌋ < 0
      ∨ 16 ≤ ⌊hues.getD i 0 / (22.5 : ℚ)⌋ := by
    rcases hout with h | h
    · left
      have : hues.getD i 0 / (22.5 : ℚ) < 0 :=
        div_neg_of_neg_of_pos h (by norm_num)
      exact Int.floor_lt.2 (by exact_mod_cast this)
    · right
      apply Int.le_floor.2
      rw [le_div_iff (by norm_num : (0 : ℚ) < 22.5)]
      push_cast
      linarith
  refine ⟨hfl, ?_, ?_⟩
  · intro bin hbin hmem
    rw [hue_bins, List.mem_map] at hbin
    obtain ⟨b, hb, rfl⟩ := hbin
    have hbr : b < 16 := by simpa using hb
    rw [List.mem_filter] at hmem
    have heq := of_decide_eq_true hmem.2
    omega
  · intro j hj
    obtain ⟨bin, hbin, hjm⟩ := hj
    rw [hue_bins, List.mem_map] at hbin
    obtain ⟨b, _, rfl⟩ := hbin
    exact List.mem_range.1 (List.mem_filter.1 hjm).1

/-- Witness for C9 at the hue list `[400]`. -/
theorem out_of_range_hue_omitted_witness :
    (0 < ([(400 : ℚ)]).length ∧ 360 ≤ ([(400 : ℚ)]).getD 0 0) ∧
      ((⌊([(400 : ℚ)]).getD 0 0 / (22.5 : ℚ)⌋ < 0
          ∨ 16 ≤ ⌊([(400 : ℚ)]).getD 0 0 / (22.5 : ℚ)⌋)
        ∧ (∀ bin ∈ hue_bins [(400 : ℚ)], 0 ∉ bin)
        ∧ ∀ j, (∃ bin ∈ hue_bins [(400 : ℚ)], j ∈ bin) →
            j < ([(400 : ℚ)]).length) :=
  ⟨⟨by norm_num, by norm_num⟩,
    out_of_range_hue_omitted [(400 : ℚ)] 0 (by norm_num)
      (Or.inr (by norm_num))⟩

/-- C10: the 16 bins are pairwise disjoint for arbitrary hue angles: an
index in bins `b1` and `b2` forces `b1 = b2`. -/
theorem hue_bins_pairwise_disjoint (hues : List ℚ) (b1 b2 : Fin 16) (i : ℕ)
    (h1 : i ∈ (hue_bins hues).getD b1.1 [])
    (h2 : i ∈ (hue_bins hues).getD b2.1 []) : b1 = b2 := by
  replace h1 := (mem_hue_bins hues b1.1 b1.2 i).1 h1
  replace h2 := (mem_hue_bins hues b2.1 b2.2 i).1 h2
  have := h1.2.symm.trans h2.2
  exact Fin.ext (by exact_mod_cast this)

/-- Witness for C10 at the hue list `[0]` and bin 0. -/
theorem hue_bins_pairwise_disjoint_witness :
    (0 ∈ (hue_bins [(0 : ℚ)]).getD (0 : Fin 16).1 []) ∧
      (0 : Fin 16) = 0 := by
  have hm : 0 ∈ (hue_bins [(0 : ℚ)]).getD (0 : Fin 16).1 [] := by
    show 0 ∈ (hue_bins [(0 : ℚ)]).getD 0 []
    rw [mem_hue_bins [(0 : ℚ)] 0 (by norm_num) 0]
    norm_num [Int.floor_eq_iff]
  exact ⟨hm, hue_bins_pairwise_disjoint [(0 : ℚ)] 0 0 0 hm hm⟩

/-- C6: with `additional_data` unset the entry point returns only the base
scalar fidelity index of the upstream computation, bypassing the
binning/averaging/gamut/shift pipeline; with it set, it returns the full
aggregate `ColourQuality_Specification_ANSIIESTM3018` structure. -/
theorem additional_data_branch
    (cie2017_base : SpectralDistribution → ℚ)
    (cie2017 : SpectralDistribution → ColourRendering_Specification_CIE2017)
    (f : ℚ → ℚ) (sd_test : SpectralDistribution) :
    colour_fidelity_index_ANSIIESTM3018 cie2017_base cie2017 f sd_test false
        = TM3018Output.scalar (cie2017_base sd_test)
      ∧ colour_fidelity_index_ANSIIESTM3018 cie2017_base cie2017 f sd_test true
        = TM3018Output.full
            (tm3018_specification f (cie2017 sd_test) sd_test) :=
  ⟨rfl, rfl⟩

/-- C2: the gamut index field equals 100 times the ratio of the shoelace
areas of the test and reference bin averages; when those averages agree
pointwise and the common area is non-zero, it equals 100. -/
theorem gamut_index_area_ratio (f : ℚ → ℚ)
    (s : ColourRendering_Specification_CIE2017) (sd : SpectralDistribution)
    (heq : averages_test s = averages_reference s)
    (hz : averages_area (averages_reference s) ≠ 0) :
    (tm3018_specification f s sd).R_g
        = 100 * (averages_area (averages_test s)
            / averages_area (averages_reference s))
      ∧ (tm3018_specification f s sd).R_g = 100 := by
  refine ⟨rfl, ?_⟩
  show R_g s = 100
  rw [R_g, heq, div_self hz]
  norm_num

/-- Concrete upstream colorimetry data used by the witnesses: sample `i`
has reference hue angle `22.5 * i` and the i-th `example_polygon` point as
its a'b' coordinates under both conditions. -/
def example_colorimetry : List DataColorimetry_TCS_CIE2017 :=
  [⟨(0,0,0), (0,10,0)⟩, ⟨(0,0,22.5), (0,9,4)⟩,
   ⟨(0,0,45), (0,7,7)⟩, ⟨(0,0,67.5), (0,4,9)⟩,
   ⟨(0,0,90), (0,0,10)⟩, ⟨(0,0,112.5), (0,-4,9)⟩,
   ⟨(0,0,135), (0,-7,7)⟩, ⟨(0,0,157.5), (0,-9,4)⟩,
   ⟨(0,0,180), (0,-10,0)⟩, ⟨(0,0,202.5), (0,-9,-4)⟩,
   ⟨(0,0,225), (0,-7,-7)⟩, ⟨(0,0,247.5), (0,-4,-9)⟩,
   ⟨(0,0,270), (0,0,-10)⟩, ⟨(0,0,292.5), (0,4,-9)⟩,
   ⟨(0,0,315), (0,7,-7)⟩, ⟨(0,0,337.5), (0,9,-4)⟩]

/-- Concrete upstream specification used by the witnesses. -/
def example_specification : ColourRendering_Specification_CIE2017 :=
  ⟨"example", ⟨[]⟩, 100, List.replicate 16 100, 6500, 0,
    (example_colorimetry, example_colorimetry), List.replicate 16 1⟩

/-- The example samples fall one per bin, in order. -/
theorem example_hue_bins :
    hue_bins (reference_hues example_specification) =
      [[0],[1],[2],[3],[4],[5],[6],[7],[8],[9],[10],[11],[12],[13],[14],[15]] := by
  norm_num [hue_bins, reference_hues, example_specification,
    example_colorimetry, List.range_succ, List.filter_cons, Int.floor_eq_iff]

/-- The example reference bin averages are the polygon points themselves. -/
theorem example_averages_reference :
    averages_reference example_specification = example_polygon := by
  rw [averages_reference, example_hue_bins]
  norm_num [bin_average, bin_mean, ref_apbp, example_specification,
    example_colorimetry, example_polygon]

/-- The example reference polygon has non-zero shoelace area. -/
theorem example_area_ne :
    averages_area (averages_reference example_specification) ≠ 0 := by
  rw [example_averages_reference]
  norm_num [averages_area, example_polygon, Finset.sum_range_succ,
    triangle_area]

/-- Witness for C2 at the concrete example specification. -/
theorem gamut_index_area_ratio_witness :
    (averages_test example_specification
        = averages_reference example_specification
      ∧ averages_area (averages_reference example_specification) ≠ 0)
      ∧ ((tm3018_specification id example_specification ⟨[]⟩).R_g
          = 100 * (averages_area (averages_test example_specification)
              / averages_area (averages_reference example_specification))
        ∧ (tm3018_specification id example_specification ⟨[]⟩).R_g = 100) :=
  ⟨⟨rfl, example_area_ne⟩,
    gamut_index_area_ratio id example_specification ⟨[]⟩ rfl example_area_ne⟩

/-- C5: for valid inputs (hue angles in [0, 360), no empty bin), each of the
arrays `R_fs`, `R_cs`, `R_hs`, `averages_test`, `averages_reference` of the
returned specification has exactly 16 entries. -/
theorem specification_arrays_length (f : ℚ → ℚ)
    (s : ColourRendering_Specification_CIE2017) (sd : SpectralDistribution)
    (hr : ∀ h ∈ reference_hues s, 0 ≤ h ∧ h < 360)
    (hne : ∀ bin ∈ hue_bins (reference_hues s), bin ≠ []) :
    (tm3018_specification f s sd).R_fs.length = 16
      ∧ (tm3018_specification f s sd).R_cs.length = 16
      ∧ (tm3018_specification f s sd).R_hs.length = 16
      ∧ (tm3018_specification f s sd).averages_test.length = 16
      ∧ (tm3018_specification f s sd).averages_reference.length = 16 := by
  refine ⟨?_, ?_, ?_, ?_, ?_⟩ <;>
    simp [tm3018_specification, R_fs, bin_delta_E_s, R_cs_list, R_hs_list,
      averages_test, averages_reference, hue_bins]

/-- Witness for C5 at the concrete example specification. -/
theorem specification_arrays_length_witness :
    ((∀ h ∈ reference_hues example_specification, 0 ≤ h ∧ h < 360)
      ∧ ∀ bin ∈ hue_bins (reference_hues example_specification), bin ≠ [])
      ∧ ((tm3018_specification id example_specification ⟨[]⟩).R_fs.length = 16
        ∧ (tm3018_specification id example_specification ⟨[]⟩).R_cs.length = 16
        ∧ (tm3018_specification id example_specification ⟨[]⟩).R_hs.length = 16
        ∧ (tm3018_specification id example_specification
            ⟨[]⟩).averages_test.length = 16
        ∧ (tm3018_specification id example_specification
            ⟨[]⟩).averages_reference.length = 16) := by
  have hr : ∀ h ∈ reference_hues example_specification, 0 ≤ h ∧ h < 360 := by
    norm_num [reference_hues, example_specification, example_colorimetry]
  have hne : ∀ bin ∈ hue_bins (reference_hues example_specification),
      bin ≠ [] := by
    rw [example_hue_bins]
    decide
  exact ⟨⟨hr, hne⟩,
    specification_arrays_length id example_specification ⟨[]⟩ hr hne⟩

/-- Modelled from the spec: the Euclidean norm `|delta|` of the
(test - reference) average-delta vector of bin `i`, the quantity the spec's
chroma/hue-shift scaling sentence refers to. -/
noncomputable def delta_norm (t r : List (ℝ × ℝ)) (i : ℕ) : ℝ :=
  Real.sqrt (a_deltas t r i ^ 2 + b_deltas t r i ^ 2)

/-- Reference averages for the C4 inputs: bin 0 sits on the unit circle at
the bin-0 bisector angle. -/
noncomputable def radial_cex_reference : List (ℝ × ℝ) :=
  (Real.cos (angles 0), Real.sin (angles 0)) :: List.replicate 15 (1, 0)

/-- Test averages whose bin-0 delta points radially inward (toward the
origin). -/
noncomputable def radial_cex_test : List (ℝ × ℝ) :=
  (0, 0) :: List.replicate 15 (1, 0)

/-- Test averages whose bin-0 delta points radially outward. -/
noncomputable def radial_wit_test : List (ℝ × ℝ) :=
  (2 * Real.cos (angles 0), 2 * Real.sin (angles 0)) :: List.replicate 15 (1, 0)

/-- The bin-0 reference average of the C4 inputs has norm 1. -/
theorem radial_cex_norm : average_norms radial_cex_reference 0 = 1 := by
  rw [average_norms]
  show Real.sqrt (Real.cos (angles 0) ^ 2 + Real.sin (angles 0) ^ 2) = 1
  rw [Real.cos_sq_add_sin_sq]
  exact Real.sqrt_one

/-- C4 counterexample: at bin 0 with the reference average on the unit
circle at the bisector angle and the test average at the origin, the delta
vector is purely radial (tangential component zero) and the norm is
non-zero, yet `R_cs = -100` differs from `100 * |delta| / norm = 100`, so
the claim's unsigned equation fails. -/
theorem local_shift_radial_cex :
    tangential_component radial_cex_test radial_cex_reference 0 = 0
      ∧ average_norms radial_cex_reference 0 ≠ 0
      ∧ R_cs radial_cex_test radial_cex_reference 0
          ≠ 100 * delta_norm radial_cex_test radial_cex_reference 0
              / average_norms radial_cex_reference 0 := by
  have hcs : Real.cos (angles 0) ^ 2 + Real.sin (angles 0) ^ 2 = 1 :=
    Real.cos_sq_add_sin_sq _
  have ha : a_deltas radial_cex_test radial_cex_reference 0
      = -Real.cos (angles 0) := by
    simp [a_deltas, radial_cex_test, radial_cex_reference]
  have hb : b_deltas radial_cex_test radial_cex_reference 0
      = -Real.sin (angles 0) := by
    simp [b_deltas, radial_cex_test, radial_cex_reference]
  have hdn : delta_norm radial_cex_test radial_cex_reference 0 = 1 := by
    rw [delta_norm, ha, hb]
    rw [show (-Real.cos (angles 0)) ^ 2 + (-Real.sin (angles 0)) ^ 2 = 1 by
      linear_combination hcs]
    exact Real.sqrt_one
  refine ⟨?_, ?_, ?_⟩
  · rw [tangential_component, ha, hb]
    ring
  · rw [radial_cex_norm]
    norm_num
  · rw [R_cs, radial_component, ha, hb, radial_cex_norm, hdn]
    rw [show (100 : ℝ) * (-Real.cos (angles 0) * Real.cos (angles 0) +
        -Real.sin (angles 0) * Real.sin (angles 0)) / 1 = -100 by
      linear_combination -(100 : ℝ) * hcs]
    norm_num

/-- C4 amended: for a bin with non-zero reference norm, a purely radial
delta vector (zero tangential component) gives `R_hs = 0` and
`|R_cs| = 100 * |delta| / norm`, and a purely tangential delta vector (zero
radial component) gives `R_cs = 0` and `|R_hs| = |delta| / norm`; the
magnitudes carry the claimed quantities while the signs of `R_cs`, `R_hs`
follow the signed projections, which the counterexample shows can be
negative. -/
theorem local_shift_decomposition (t r : List (ℝ × ℝ)) (i : ℕ)
    (hn : average_norms r i ≠ 0) :
    (tangential_component t r i = 0 →
        R_hs t r i = 0
          ∧ |R_cs t r i| = 100 * delta_norm t r i / average_norms r i)
      ∧ (radial_component t r i = 0 →
        R_cs t r i = 0
          ∧ |R_hs t r i| = delta_norm t r i / average_norms r i) := by
  have hcs : Real.cos (angles i) ^ 2 + Real.sin (angles i) ^ 2 = 1 :=
    Real.cos_sq_add_sin_sq _
  have hkey : radial_component t r i ^ 2 + tangential_component t r i ^ 2
      = a_deltas t r i ^ 2 + b_deltas t r i ^ 2 := by
    rw [radial_component, tangential_component]
    linear_combination (a_deltas t r i ^ 2 + b_deltas t r i ^ 2) * hcs
  have hnn : (0 : ℝ) ≤ average_norms r i := Real.sqrt_nonneg _
  constructor
  · intro htan
    refine ⟨by rw [R_hs, htan, zero_div], ?_⟩
    have h2 : radial_component t r i ^ 2
        = a_deltas t r i ^ 2 + b_deltas t r i ^ 2 := by
      rw [← hkey, htan]
      ring
    rw [R_cs, delta_norm, abs_div, abs_mul, abs_of_nonneg hnn, ← h2,
      Real.sqrt_sq_eq_abs]
    norm_num
  · intro hrad
    refine ⟨by rw [R_cs, hrad, mul_zero, zero_div], ?_⟩
    have h2 : tangential_component t r i ^ 2
        = a_deltas t r i ^ 2 + b_deltas t r i ^ 2 := by
      rw [← hkey, hrad]
      ring
    rw [R_hs, delta_norm, abs_div, abs_of_nonneg hnn, ← h2,
      Real.sqrt_sq_eq_abs]

/-- Witness for the amended C4 at bin 0 with an outward radial delta. -/
theorem local_shift_decomposition_witness :
    average_norms radial_cex_reference 0 ≠ 0
      ∧ tangential_component radial_wit_test radial_cex_reference 0 = 0
      ∧ (R_hs radial_wit_test radial_cex_reference 0 = 0
        ∧ |R_cs radial_wit_test radial_cex_reference 0|
            = 100 * delta_norm radial_wit_test radial_cex_reference 0
                / average_norms radial_cex_reference 0) := by
  have hn : average_norms radial_cex_reference 0 ≠ 0 := by
    rw [radial_cex_norm]
    norm_num
  have htan : tangential_component radial_wit_test radial_cex_reference 0
      = 0 := by
    have ha : a_deltas radial_wit_test radial_cex_reference 0
        = Real.cos (angles 0) := by
      simp [a_deltas, radial_wit_test, radial_cex_reference]
      ring
    have hb : b_deltas radial_wit_test radial_cex_reference 0
        = Real.sin (angles 0) := by
      simp [b_deltas, radial_wit_test, radial_cex_reference]
      ring
    rw [tangential_component, ha, hb]
    ring
  exact ⟨hn, htan,
    (local_shift_decomposition radial_wit_test radial_cex_reference 0 hn).1
      htan⟩

end TM3018
